import Mathlib

/-
Verification of the unit/actor core, the resource ledger and the unit
registry of the sc_concurrency_challenge repository.

The Go code is shallowly embedded as pure Lean functions.  Conventions:
  - Go `int` is modelled as `Int` (every quantity handled by the claims
    stays far away from the 64-bit boundaries, so two's-complement
    wrap-around never fires on the inputs considered here);
  - a `*Unit` pointer held inside another value (a unit's `target`, a
    command's `Target`) is represented by the referenced unit's ID
    (`Option UnitId`, `none` for the nil pointer); where a handler
    dereferences such a pointer, the dereferenced `Unit` value is passed
    explicitly;
  - a channel of capacity c is a list together with the literal capacity
    check `length < c` at the send site; closing a channel and context
    cancellation are booleans on the unit;
  - `sync.Once` is a boolean flag, and the run-time panic of a double
    `close` is an `Except` error, so that absence of panics is provable;
  - wall-clock waiting (the 100ms bound of `SendCommand`) is modelled by
    its observable outcome: the queue is still full when the wait ends.
-/

namespace SCW

/-- Behavioral states of a unit, from `UnitState` in the types package. -/
inductive UnitState where
  | Idle
  | Moving
  | Attacking
  | Defending
  | HoldingPosition
  | Patrolling
  | Repairing
  | Building
  | Dead
deriving DecidableEq

/-- Elevation layers, from `ElevationLayer` in the types package. -/
inductive ElevationLayer where
  | Burrowed
  | Ground
  | Air
deriving DecidableEq

/-- Battlefield position.  The Go struct stores float64 coordinates; no
claim performs coordinate arithmetic, so the coordinates are carried as
integers here, which faithfully represents every position the claims
touch. -/
structure Position where
  x : Int
  y : Int
deriving DecidableEq

/-- Unit types are Go integers (`type UnitType int`). -/
abbrev UnitType := Int

/-- Unit identifiers. -/
abbrev UnitId := String

/-- Command kinds, from `CommandType`. -/
inductive CommandType where
  | CmdMove
  | CmdAttack
  | CmdStop
  | CmdHold
deriving DecidableEq

/-- A command sent to a unit.  `target` holds the ID of the unit the Go
`Target *Unit` pointer references (`none` = nil). -/
structure Command where
  type : CommandType
  target : Option UnitId
  dest : Position
deriving DecidableEq

/-- Event kinds, from `UnitEventType`. -/
inductive UnitEventType where
  | EventDamaged
  | EventKilled
  | EventDied
  | EventMoved
  | EventIdle
deriving DecidableEq

/-- A unit event; `source`/`target` carry unit IDs for the corresponding
pointers.  The wall-clock `Timestamp` field is not modelled. -/
structure UnitEvent where
  type : UnitEventType
  source : UnitId
  target : Option UnitId
deriving DecidableEq

/-- Parsed per-type stats, from `UnitStatsData`. -/
structure UnitStatsData where
  maxHealth : Int
  baseDamage : Int
  baseArmor : Int
  armorModifier : Int
  attackModifier : Int
  attackRange : Int
  visionRange : Int
  elevationLayer : String
deriving DecidableEq

/-- A stats table maps a unit type to its stats entry; this stands for
the lookup `unitStatsCache[unitType.String()]` on the embedded JSON. -/
abbrev StatsTable := UnitType → Option UnitStatsData

/-- The mutable state of a Go `Unit`, plus its lifecycle bookkeeping:
`commands` is the inbox channel (capacity 10), `events` the outbox,
`cancelled` the state of `ctx.Done()`, `commandsClosed` whether the
inbox channel has been closed, `shutdownDone` the `sync.Once` flag. -/
structure Unit where
  id : UnitId
  type : UnitType
  health : Int
  maxHealth : Int
  baseDamage : Int
  baseArmor : Int
  attackModifier : Int
  armorModifier : Int
  attackUpgrades : Int
  armorUpgrades : Int
  attackRange : Int
  visionRange : Int
  state : UnitState
  elevationLayer : ElevationLayer
  position : Position
  target : Option UnitId
  commands : List Command
  events : List UnitEvent
  cancelled : Bool
  commandsClosed : Bool
  shutdownDone : Bool
deriving DecidableEq

/-- The defensive default stats used by `initializeStats` when the type
is absent from the stats table. -/
def defaultStats : UnitStatsData :=
  { maxHealth := 50
    baseDamage := 5
    baseArmor := 0
    armorModifier := 1
    attackModifier := 0
    attackRange := 4
    visionRange := 7
    elevationLayer := "Ground" }

/-- The switch at the end of `initializeStats` parsing the elevation
layer string (default branch falls back to Ground). -/
def parseElevation (s : String) : ElevationLayer :=
  if s = "Ground" then ElevationLayer.Ground
  else if s = "Air" then ElevationLayer.Air
  else if s = "Burrowed" then ElevationLayer.Burrowed
  else ElevationLayer.Ground

/-- Go `initializeStats` from the types package: looks the type up in the
stats cache, falls back to `defaultStats`, then applies the stats. -/
def initializeStats (table : StatsTable) (u : Unit) (unitType : UnitType) : Unit :=
  let stats := (table unitType).getD defaultStats
  { u with
      maxHealth := stats.maxHealth
      health := stats.maxHealth
      baseDamage := stats.baseDamage
      baseArmor := stats.baseArmor
      armorModifier := stats.armorModifier
      attackModifier := stats.attackModifier
      armorUpgrades := 0
      attackUpgrades := 0
      attackRange := stats.attackRange
      visionRange := stats.visionRange
      elevationLayer := parseElevation stats.elevationLayer }

/-- Go `NewUnit`: fresh context (not cancelled), empty buffered channels,
state Idle, position as given, remaining fields at their Go zero values,
then `initializeStats`.  The goroutine start is not part of the state. -/
def NewUnit (table : StatsTable) (id : UnitId) (unitType : UnitType)
    (pos : Position) : Unit :=
  initializeStats table
    { id := id
      type := unitType
      health := 0
      maxHealth := 0
      baseDamage := 0
      baseArmor := 0
      attackModifier := 0
      armorModifier := 0
      attackUpgrades := 0
      armorUpgrades := 0
      attackRange := 0
      visionRange := 0
      state := UnitState.Idle
      elevationLayer := ElevationLayer.Ground
      position := pos
      target := none
      commands := []
      events := []
      cancelled := false
      commandsClosed := false
      shutdownDone := false } unitType

/-- Accessor `GetHealth`. -/
def GetHealth (u : Unit) : Int := u.health

/-- Accessor `GetDamage`: base damage plus attack modifier times upgrades. -/
def GetDamage (u : Unit) : Int := u.baseDamage + u.attackModifier * u.attackUpgrades

/-- Accessor `GetArmor`: base armor plus armor modifier times upgrades. -/
def GetArmor (u : Unit) : Int := u.baseArmor + u.armorModifier * u.armorUpgrades

/-- Mutator `SetState`. -/
def SetState (u : Unit) (s : UnitState) : Unit := { u with state := s }

/-- Mutator `SetPosition`. -/
def SetPosition (u : Unit) (p : Position) : Unit := { u with position := p }

/-- Mutator `SetTarget` (argument is the ID of the pointed-to unit, or none). -/
def SetTarget (u : Unit) (t : Option UnitId) : Unit := { u with target := t }

/-- Go `TakeDamage`: subtracts `amount` from health, clamps below at 0,
returns the updated unit together with the returned new health. -/
def TakeDamage (u : Unit) (amount : Int) : Unit × Int :=
  let h := u.health - amount
  let h := if h < 0 then 0 else h
  ({ u with health := h }, h)

/-- A whole sequence of `TakeDamage` calls. -/
def takeDamageSeq (u : Unit) (amounts : List Int) : Unit :=
  amounts.foldl (fun v a => (TakeDamage v a).1) u

/-- Go `CalculateDamageAgainst`: attacker damage minus target armor,
floored at 0. -/
def CalculateDamageAgainst (u : Unit) (tgt : Unit) : Int :=
  let targetArmor := GetArmor tgt
  let dmg := GetDamage u
  let result := dmg - targetArmor
  if result < 0 then 0 else result

/-- Errors `SendCommand` can return. -/
inductive SendError where
  | shuttingDown
  | backpressure
deriving DecidableEq

/-- Go `SendCommand`: first a non-blocking check of `ctx.Done()`; then the
send-select: if the capacity-10 inbox has room the command is enqueued,
otherwise the 100ms `time.After` branch fires (the queue being still
full at the end of the wait) and backpressure is reported. -/
def SendCommand (u : Unit) (cmd : Command) : Unit × Option SendError :=
  if u.cancelled then (u, some SendError.shuttingDown)
  else if u.commands.length < 10 then
    ({ u with commands := u.commands ++ [cmd] }, none)
  else (u, some SendError.backpressure)

/-- Closing the command channel; a second close is the run-time panic
`close of closed channel`, modelled as an error. -/
def closeCommands (u : Unit) : Except String Unit :=
  if u.commandsClosed then Except.error "close of closed channel"
  else Except.ok { u with commandsClosed := true }

/-- Go `Shutdown`: guarded by `sync.Once`; the first call cancels the
context and closes the inbox, later calls do nothing. -/
def Shutdown (u : Unit) : Except String Unit :=
  if u.shutdownDone then Except.ok u
  else closeCommands { u with shutdownDone := true, cancelled := true }

/-- Iterated `Shutdown` called n times in sequence. -/
def shutdownN : Nat → Unit → Except String Unit
  | 0, u => Except.ok u
  | n + 1, u => (Shutdown u).bind (shutdownN n)

/-- Go `handleMove`: sets state Moving, moves to the destination, emits a
Moved event. -/
def handleMove (u : Unit) (cmd : Command) : Unit :=
  let u := SetState u UnitState.Moving
  let u := SetPosition u cmd.dest
  { u with events := u.events ++ [⟨UnitEventType.EventMoved, u.id, none⟩] }

/-- Go `handleAttack`: a nil target is a logged no-op; otherwise set state
Attacking, set the target, deal `CalculateDamageAgainst` damage to the
target and emit a Damaged event.  `tgt` is the unit the command's
`Target` pointer references (`none` = nil); the updated target value is
returned alongside the attacker. -/
def handleAttack (u : Unit) (tgt : Option Unit) : Unit × Option Unit :=
  match tgt with
  | none => (u, none)
  | some t =>
    let u := SetState u UnitState.Attacking
    let u := SetTarget u (some t.id)
    let dmg := CalculateDamageAgainst u t
    let t := (TakeDamage t dmg).1
    ({ u with events := u.events ++ [⟨UnitEventType.EventDamaged, u.id, some t.id⟩] }, some t)

/-- Go `handleStop`: back to Idle, clear target. -/
def handleStop (u : Unit) : Unit :=
  SetTarget (SetState u UnitState.Idle) none

/-- Go `handleHold`: HoldingPosition, target untouched. -/
def handleHold (u : Unit) : Unit :=
  SetState u UnitState.HoldingPosition

/-- The dispatch switch of the unit's `run` loop for one received
command; `tgt` is the dereference of the command's `Target` pointer,
threaded through so attack effects on the target are visible. -/
def runDispatch (u : Unit) (tgt : Option Unit) (cmd : Command) : Unit × Option Unit :=
  match cmd.type with
  | CommandType.CmdMove => (handleMove u cmd, tgt)
  | CommandType.CmdAttack => handleAttack u tgt
  | CommandType.CmdStop => (handleStop u, tgt)
  | CommandType.CmdHold => (handleHold u, tgt)

/-
Resource ledger (ResourceManager).
-/

/-- A ledger entry: current amount and capacity, from `types.Resource`
as described by the spec data model (`0 ≤ current ≤ max`). -/
structure Resource where
  current : Int
  max : Int
deriving DecidableEq

/-- A ledger maps resource names to their entries. -/
abbrev Ledger := String → Option Resource

/-- Outcome of a resource transaction (`TransactionResult`). -/
structure TransactionResult where
  success : Bool
deriving DecidableEq

/-- Modelled from the spec: the validation the transaction processor
performs for one delta of an Allocate transaction (the bodies of
`AllocateResources` and `transactionProcessor` in the resources package
are unimplemented TODO stubs, so this follows spec section 4.2): a
negative delta needs `current + delta ≥ 0`, a positive delta needs
`current + delta ≤ max`, and the resource must exist in the ledger. -/
def checkDelta (led : Ledger) (nd : String × Int) : Bool :=
  match led nd.1 with
  | none => false
  | some r =>
    if nd.2 < 0 then decide (0 ≤ r.current + nd.2)
    else if 0 < nd.2 then decide (r.current + nd.2 ≤ r.max)
    else true

/-- Applying one delta to the ledger. -/
def applyDelta (led : Ledger) (nd : String × Int) : Ledger :=
  fun n =>
    if n = nd.1 then (led nd.1).map (fun r => { r with current := r.current + nd.2 })
    else led n

/-- Applying all deltas of a transaction. -/
def applyDeltas (led : Ledger) (deltas : List (String × Int)) : Ledger :=
  deltas.foldl applyDelta led

/-- Modelled from the spec: processing of one Allocate transaction by
the serialized transaction processor (whose body is a TODO stub in the
resources package): if every delta passes validation all deltas are
applied atomically and success is reported, otherwise nothing is
applied and the result carries `Success:false`. -/
def processAllocate (led : Ledger) (deltas : List (String × Int)) :
    Ledger × TransactionResult :=
  if deltas.all (checkDelta led) then (applyDeltas led deltas, ⟨true⟩)
  else (led, ⟨false⟩)

/-
Unit registry (UnitManager).
-/

/-- A registry content: unit IDs mapped to unit references (the shallow
copy shares the `*Unit` pointers, so entries carry unit IDs standing
for those pointers). -/
abbrev Registry := List (UnitId × UnitId)

/-- Modelled from the spec: the manager world for `GetAllUnits`
snapshot isolation (the body of `GetAllUnits` in
internal/units/manager.go is an unimplemented TODO stub).  Go maps are
reference values, so the world carries a heap of map cells addressed by
index; the manager's live registry lives at `registryRef`. -/
structure ManagerWorld where
  heap : List Registry
  registryRef : Nat

/-- Reading a map cell from the heap. -/
def heapGet (w : ManagerWorld) (r : Nat) : Registry :=
  (w.heap[r]?).getD []

/-- Overwriting a map cell in the heap. -/
def heapSet (w : ManagerWorld) (r : Nat) (v : Registry) : ManagerWorld :=
  { w with heap := w.heap.set r v }

/-- Modelled from the spec: `GetAllUnits` copies the live registry map
into a freshly allocated map under the read lock and returns the fresh
map (never the live one); the fresh cell's address is returned. -/
def GetAllUnits (w : ManagerWorld) : ManagerWorld × Nat :=
  ({ w with heap := w.heap ++ [heapGet w w.registryRef] }, w.heap.length)

/-- A registry mutation: add a unit under an ID (no-op if the ID is
already registered, matching AlreadyExists rejection) or remove one. -/
inductive RegOp where
  | add (id : UnitId) (u : UnitId)
  | remove (id : UnitId)

/-- Applying a mutation to a registry content. -/
def applyRegOp (m : Registry) : RegOp → Registry
  | RegOp.add id u => if (m.lookup id).isSome then m else m ++ [(id, u)]
  | RegOp.remove id => m.filter (fun p => p.1 ≠ id)

/-- Modelled from the spec: `AddUnit`/`RemoveUnit` mutate the live
registry map in place under the write lock. -/
def mutateRegistry (w : ManagerWorld) (op : RegOp) : ManagerWorld :=
  heapSet w w.registryRef (applyRegOp (heapGet w w.registryRef) op)

/-- A sequence of registry mutations. -/
def mutateRegistrySeq (w : ManagerWorld) (ops : List RegOp) : ManagerWorld :=
  ops.foldl mutateRegistry w

/-
Helper lemmas.
-/

/-- A stats table with no entries (every lookup misses). -/
def emptyTable : StatsTable := fun _ => none

/-- What one `TakeDamage` call does to the relevant fields. -/
theorem takeDamage_fields (v : Unit) (a : Int) :
    (TakeDamage v a).1.maxHealth = v.maxHealth ∧
    (TakeDamage v a).1.health = max 0 (v.health - a) ∧
    (TakeDamage v a).2 = (TakeDamage v a).1.health := by
  refine ⟨rfl, ?_, rfl⟩
  simp only [TakeDamage]
  split <;> omega

/-- Invariant of a sequence of nonnegative `TakeDamage` calls: health
never increases, stays nonnegative, and maxHealth is untouched. -/
theorem takeDamageSeq_inv (amounts : List Int) :
    ∀ v : Unit, (∀ a ∈ amounts, 0 ≤ a) → 0 ≤ v.health →
      0 ≤ (takeDamageSeq v amounts).health ∧
      (takeDamageSeq v amounts).health ≤ v.health ∧
      (takeDamageSeq v amounts).maxHealth = v.maxHealth := by
  induction amounts with
  | nil => intro v _ h0; exact ⟨h0, le_refl _, rfl⟩
  | cons a as ih =>
    intro v hpos h0
    have ha : 0 ≤ a := hpos a (List.mem_cons_self a as)
    have hstep : takeDamageSeq v (a :: as) = takeDamageSeq (TakeDamage v a).1 as := rfl
    have hf := takeDamage_fields v a
    have h0' : 0 ≤ (TakeDamage v a).1.health := by
      rw [hf.2.1]; exact le_max_left 0 _
    have hle : (TakeDamage v a).1.health ≤ v.health := by
      rw [hf.2.1]; omega
    have := ih (TakeDamage v a).1 (fun b hb => hpos b (List.mem_cons_of_mem a hb)) h0'
    rw [hstep]
    exact ⟨this.1, le_trans this.2.1 hle, this.2.2.trans hf.1⟩

/-
Claims.
-/

/-- Claim C1 (counterexample): a freshly created unit of an unknown type
has health = maxHealth = 50, yet a single `TakeDamage` call with the
integer amount -1 leaves health at 51, outside `[0, maxHealth]` — the
code clamps only below at 0, never above at maxHealth. -/
theorem C1_counterexample :
    (NewUnit emptyTable "u" 0 ⟨0, 0⟩).health = 50 ∧
    (NewUnit emptyTable "u" 0 ⟨0, 0⟩).maxHealth = 50 ∧
    (TakeDamage (NewUnit emptyTable "u" 0 ⟨0, 0⟩) (-1)).1.health = 51 ∧
    ¬ (TakeDamage (NewUnit emptyTable "u" 0 ⟨0, 0⟩) (-1)).1.health ≤
        (NewUnit emptyTable "u" 0 ⟨0, 0⟩).maxHealth := by
  refine ⟨rfl, rfl, rfl, by decide⟩

/-- Claim C1 (amended): for every unit whose health lies in
`[0, maxHealth]` and every sequence of `TakeDamage` calls with
NONNEGATIVE amounts, the resulting health stays in `[0, maxHealth]`;
once health is 0, further nonnegative damage keeps it at 0; and each
`TakeDamage` call returns the new clamped health `max 0 (health -
amount)`. -/
theorem C1_health_clamped (u : Unit) (amounts : List Int)
    (hpos : ∀ a ∈ amounts, 0 ≤ a)
    (h0 : 0 ≤ u.health) (h1 : u.health ≤ u.maxHealth) :
    (0 ≤ (takeDamageSeq u amounts).health ∧
     (takeDamageSeq u amounts).health ≤ (takeDamageSeq u amounts).maxHealth ∧
     (takeDamageSeq u amounts).maxHealth = u.maxHealth) ∧
    (u.health = 0 → (takeDamageSeq u amounts).health = 0) ∧
    (∀ (v : Unit) (a : Int), (TakeDamage v a).2 = max 0 (v.health - a) ∧
      (TakeDamage v a).1.health = (TakeDamage v a).2) := by
  obtain ⟨hnn, hmono, hmax⟩ := takeDamageSeq_inv amounts u hpos h0
  refine ⟨⟨hnn, ?_, hmax⟩, ?_, ?_⟩
  · rw [hmax]; exact le_trans hmono h1
  · intro hz; omega
  · intro v a
    have hf := takeDamage_fields v a
    exact ⟨hf.2.2.symm ▸ hf.2.1.symm ▸ (hf.2.1.trans rfl), hf.2.2.symm⟩

/-- Claim C1 (witness for the amended theorem): the fresh default unit,
damaged by [10, 60, 5], stays within bounds. -/
theorem C1_health_clamped_witness :
    0 ≤ (takeDamageSeq (NewUnit emptyTable "u" 0 ⟨0, 0⟩) [10, 60, 5]).health ∧
    (takeDamageSeq (NewUnit emptyTable "u" 0 ⟨0, 0⟩) [10, 60, 5]).health ≤
      (takeDamageSeq (NewUnit emptyTable "u" 0 ⟨0, 0⟩) [10, 60, 5]).maxHealth := by
  have h := C1_health_clamped (NewUnit emptyTable "u" 0 ⟨0, 0⟩) [10, 60, 5]
    (by decide) (by decide) (by decide)
  exact ⟨h.1.1, h.1.2.1⟩

/-- Claim C2 (code evaluated at the failing input): a unit whose state
is Dead still has its Move command handled by the run loop's dispatch,
and `handleMove` transitions the state out of Dead to Moving and moves
the unit — the handlers never check for the Dead state, so Dead is not
terminal in the code. -/
theorem C2_dead_not_terminal :
    (SetState (NewUnit emptyTable "u" 0 ⟨0, 0⟩) UnitState.Dead).state = UnitState.Dead ∧
    ((runDispatch (SetState (NewUnit emptyTable "u" 0 ⟨0, 0⟩) UnitState.Dead) none
        ⟨CommandType.CmdMove, none, ⟨1, 2⟩⟩).1).state = UnitState.Moving ∧
    ((runDispatch (SetState (NewUnit emptyTable "u" 0 ⟨0, 0⟩) UnitState.Dead) none
        ⟨CommandType.CmdMove, none, ⟨1, 2⟩⟩).1).position = (⟨1, 2⟩ : Position) := by
  exact ⟨rfl, rfl, rfl⟩

/-- Claim C3: `CalculateDamageAgainst` returns
`max 0 (effective damage - effective armor)` with effective damage
`baseDamage + attackModifier*attackUpgrades` and effective armor
`baseArmor + armorModifier*armorUpgrades`; it is never negative, and
when armor is at least damage the result is exactly 0. -/
theorem C3_damage_floor (a t : Unit) :
    CalculateDamageAgainst a t = max 0 (GetDamage a - GetArmor t) ∧
    GetDamage a = a.baseDamage + a.attackModifier * a.attackUpgrades ∧
    GetArmor t = t.baseArmor + t.armorModifier * t.armorUpgrades ∧
    0 ≤ CalculateDamageAgainst a t ∧
    (GetDamage a ≤ GetArmor t → CalculateDamageAgainst a t = 0) := by
  refine ⟨?_, rfl, rfl, ?_, ?_⟩
  · simp only [CalculateDamageAgainst]; split <;> omega
  · simp only [CalculateDamageAgainst]; split <;> omega
  · intro h; simp only [CalculateDamageAgainst]; split <;> omega

/-- Claim C3 (witness): a 5-damage unit against a 10-armor unit deals
exactly 0. -/
theorem C3_damage_floor_witness :
    CalculateDamageAgainst (NewUnit emptyTable "a" 0 ⟨0, 0⟩)
      { NewUnit emptyTable "t" 0 ⟨0, 0⟩ with baseArmor := 10 } = 0 := by
  have h := C3_damage_floor (NewUnit emptyTable "a" 0 ⟨0, 0⟩)
    { NewUnit emptyTable "t" 0 ⟨0, 0⟩ with baseArmor := 10 }
  exact h.2.2.2.2 (by decide)

/-- A concrete stop command, for witnesses. -/
def stopCmd : Command := ⟨CommandType.CmdStop, none, ⟨0, 0⟩⟩

/-- A concrete freshly created unit, for witnesses. -/
def u0 : Unit := NewUnit emptyTable "u0" 0 ⟨0, 0⟩

/-- The unit state after a completed first `Shutdown` call: once-flag
set, context cancelled, inbox closed. -/
def shutUnit (u : Unit) : Unit :=
  { u with shutdownDone := true, cancelled := true, commandsClosed := true }

/-- The first `Shutdown` call on a unit with open once-flag and open
channel cancels and closes. -/
theorem shutdown_fresh (u : Unit) (hd : u.shutdownDone = false)
    (hc : u.commandsClosed = false) :
    Shutdown u = Except.ok (shutUnit u) := by
  rw [Shutdown, if_neg (by simp [hd]), closeCommands, if_neg (by simp [hc])]
  rfl

/-- Once the `sync.Once` flag is set, further `Shutdown` calls return
the unit unchanged and never fail. -/
theorem shutdownN_stable (n : Nat) (v : Unit) (h : v.shutdownDone = true) :
    shutdownN n v = Except.ok v := by
  induction n with
  | zero => rfl
  | succ m ih =>
    show (Shutdown v).bind (shutdownN m) = Except.ok v
    rw [Shutdown, if_pos h]
    exact ih

/-- Claim C5: `SendCommand` fails with the shutting-down error when the
lifecycle context is cancelled; fails with the backpressure error when
the capacity-10 inbox is still full at the end of the bounded wait; and
after `Shutdown` returns, every `SendCommand` returns the shutting-down
error, never silently succeeding.  The hypothesis records the reachable
state invariant that a completed `sync.Once` implies a cancelled
context. -/
theorem C5_send_after_shutdown (u : Unit) (cmd : Command)
    (hinv : u.shutdownDone = true → u.cancelled = true) :
    (u.cancelled = true → SendCommand u cmd = (u, some SendError.shuttingDown)) ∧
    (u.cancelled = false → 10 ≤ u.commands.length →
      SendCommand u cmd = (u, some SendError.backpressure)) ∧
    (∀ v : Unit, Shutdown u = Except.ok v →
      SendCommand v cmd = (v, some SendError.shuttingDown)) := by
  refine ⟨?_, ?_, ?_⟩
  · intro h; rw [SendCommand, if_pos h]
  · intro h hl
    rw [SendCommand, if_neg (by simp [h]), if_neg (by omega)]
  · intro v hv
    rw [Shutdown] at hv
    by_cases hd : u.shutdownDone = true
    · rw [if_pos hd] at hv
      injection hv with h
      subst h
      rw [SendCommand, if_pos (hinv hd)]
    · rw [if_neg hd, closeCommands] at hv
      split at hv
      · exact absurd hv (by simp)
      · injection hv with h
        subst h
        rw [SendCommand, if_pos rfl]

/-- Claim C5 (witness): a cancelled unit rejects a command with the
shutting-down error, a full-inbox live unit gets backpressure, and the
unit returned by `Shutdown` of a fresh unit rejects with the
shutting-down error. -/
theorem C5_send_after_shutdown_witness :
    SendCommand { u0 with cancelled := true } stopCmd =
      ({ u0 with cancelled := true }, some SendError.shuttingDown) ∧
    SendCommand { u0 with commands := List.replicate 10 stopCmd } stopCmd =
      ({ u0 with commands := List.replicate 10 stopCmd },
        some SendError.backpressure) ∧
    SendCommand (shutUnit u0) stopCmd =
      (shutUnit u0, some SendError.shuttingDown) := by
  refine ⟨(C5_send_after_shutdown { u0 with cancelled := true } stopCmd
      (fun _ => rfl)).1 rfl, ?_, ?_⟩
  · exact (C5_send_after_shutdown { u0 with commands := List.replicate 10 stopCmd }
      stopCmd (by decide)).2.1 rfl (by decide)
  · exact (C5_send_after_shutdown u0 stopCmd (by decide)).2.2 (shutUnit u0)
      (shutdown_fresh u0 rfl rfl)

/-- Claim C6: `Shutdown` is idempotent — for a unit whose once-flag and
channel are still open (as every `NewUnit` result is), any number n ≥ 1
of sequential `Shutdown` calls produces the same terminal state as a
single call, and never errors (no double close of the command channel:
the `Except` never hits the close-of-closed-channel panic). -/
theorem C6_shutdown_idempotent (u : Unit) (n : Nat)
    (hn : 1 ≤ n) (hd : u.shutdownDone = false) (hc : u.commandsClosed = false) :
    shutdownN n u = Shutdown u ∧ ∃ v : Unit, shutdownN n u = Except.ok v := by
  obtain ⟨m, rfl⟩ : ∃ m, n = m + 1 := ⟨n - 1, by omega⟩
  have hShut : Shutdown u = Except.ok (shutUnit u) := shutdown_fresh u hd hc
  have h1 : shutdownN (m + 1) u = Except.ok (shutUnit u) := by
    show (Shutdown u).bind (shutdownN m) = _
    rw [hShut]
    exact shutdownN_stable m _ rfl
  exact ⟨h1.trans hShut.symm, _, h1⟩

/-- Claim C6 (witness): three sequential `Shutdown` calls on a fresh
unit equal one call and succeed. -/
theorem C6_shutdown_idempotent_witness :
    shutdownN 3 u0 = Shutdown u0 ∧ ∃ v : Unit, shutdownN 3 u0 = Except.ok v :=
  C6_shutdown_idempotent u0 3 (by omega) rfl rfl

/-- Claim C8: an attack command whose target pointer is nil is an
ignored no-op — the unit (state, target, everything) and the would-be
target are unchanged; with a non-nil target the handler sets state
Attacking, stores the target reference, and deals
`CalculateDamageAgainst` damage to the target. -/
theorem C8_attack_nil_noop (u t : Unit) :
    handleAttack u none = (u, none) ∧
    (handleAttack u (some t)).1.state = UnitState.Attacking ∧
    (handleAttack u (some t)).1.target = some t.id ∧
    (handleAttack u (some t)).2 =
      some (TakeDamage t (CalculateDamageAgainst u t)).1 := by
  exact ⟨rfl, rfl, rfl, rfl⟩

/-- Claim C9: every unit returned by `NewUnit` starts Idle at full
health with no target and zero upgrade counters, so `GetDamage` and
`GetArmor` give the base values; a type missing from the stats table
gets the defensive defaults (maxHealth 50, baseDamage 5, baseArmor 0,
attackRange 4, visionRange 7, elevation Ground). -/
theorem C9_new_unit_defaults (table : StatsTable) (id : UnitId)
    (t : UnitType) (pos : Position) :
    (NewUnit table id t pos).state = UnitState.Idle ∧
    (NewUnit table id t pos).health = (NewUnit table id t pos).maxHealth ∧
    (NewUnit table id t pos).target = none ∧
    (NewUnit table id t pos).attackUpgrades = 0 ∧
    (NewUnit table id t pos).armorUpgrades = 0 ∧
    GetDamage (NewUnit table id t pos) = (NewUnit table id t pos).baseDamage ∧
    GetArmor (NewUnit table id t pos) = (NewUnit table id t pos).baseArmor ∧
    (table t = none →
      (NewUnit table id t pos).maxHealth = 50 ∧
      (NewUnit table id t pos).baseDamage = 5 ∧
      (NewUnit table id t pos).baseArmor = 0 ∧
      (NewUnit table id t pos).attackRange = 4 ∧
      (NewUnit table id t pos).visionRange = 7 ∧
      (NewUnit table id t pos).elevationLayer = ElevationLayer.Ground) := by
  refine ⟨rfl, rfl, rfl, rfl, rfl, ?_, ?_, ?_⟩
  · show (NewUnit table id t pos).baseDamage +
      (NewUnit table id t pos).attackModifier * 0 = _
    omega
  · show (NewUnit table id t pos).baseArmor +
      (NewUnit table id t pos).armorModifier * 0 = _
    omega
  · intro h
    simp only [NewUnit, initializeStats, h, Option.getD]
    exact ⟨rfl, rfl, rfl, rfl, rfl, rfl⟩

/-- Claim C9 (witness): a unit of a type absent from the table gets the
default stats. -/
theorem C9_new_unit_defaults_witness :
    (NewUnit emptyTable "w" 7 ⟨3, 4⟩).maxHealth = 50 ∧
    (NewUnit emptyTable "w" 7 ⟨3, 4⟩).baseDamage = 5 ∧
    (NewUnit emptyTable "w" 7 ⟨3, 4⟩).elevationLayer = ElevationLayer.Ground :=
  let h := (C9_new_unit_defaults emptyTable "w" 7 ⟨3, 4⟩).2.2.2.2.2.2.2 rfl
  ⟨h.1, h.2.1, h.2.2.2.2.2⟩

/-- Claim C10: `SendCommand` never changes the unit's observable state
— health, maxHealth, state, position, target, damage and armor are
exactly as before; its only effect is appending the command to the
inbox on success, and on error the unit is completely unchanged. -/
theorem C10_send_frame (u : Unit) (cmd : Command) :
    ((SendCommand u cmd).1.health = u.health ∧
     (SendCommand u cmd).1.maxHealth = u.maxHealth ∧
     (SendCommand u cmd).1.state = u.state ∧
     (SendCommand u cmd).1.position = u.position ∧
     (SendCommand u cmd).1.target = u.target ∧
     GetDamage (SendCommand u cmd).1 = GetDamage u ∧
     GetArmor (SendCommand u cmd).1 = GetArmor u) ∧
    ((SendCommand u cmd).2 = none →
      (SendCommand u cmd).1.commands = u.commands ++ [cmd]) ∧
    ((SendCommand u cmd).2 ≠ none → (SendCommand u cmd).1 = u) := by
  rw [SendCommand]
  by_cases h : u.cancelled = true
  · rw [if_pos h]
    exact ⟨⟨rfl, rfl, rfl, rfl, rfl, rfl, rfl⟩, by simp, fun _ => rfl⟩
  · rw [if_neg h]
    by_cases hl : u.commands.length < 10
    · rw [if_pos hl]
      exact ⟨⟨rfl, rfl, rfl, rfl, rfl, rfl, rfl⟩, fun _ => rfl, by simp⟩
    · rw [if_neg hl]
      exact ⟨⟨rfl, rfl, rfl, rfl, rfl, rfl, rfl⟩, by simp, fun _ => rfl⟩

/-- Claim C10 (witness): sending a stop command to a fresh unit leaves
every observable field unchanged and appends to the inbox. -/
theorem C10_send_frame_witness :
    (SendCommand u0 stopCmd).1.health = u0.health ∧
    (SendCommand u0 stopCmd).1.commands = u0.commands ++ [stopCmd] :=
  let h := C10_send_frame u0 stopCmd
  ⟨h.1.1, h.2.1 rfl⟩

/-- The scenario ledger: minerals at current 10 of max 100. -/
def mineralLedger : Ledger :=
  fun n => if n = "minerals" then some ⟨10, 100⟩ else none

/-- Applying deltas leaves resources whose name carries no delta
untouched. -/
theorem applyDeltas_not_mem (deltas : List (String × Int)) :
    ∀ (led : Ledger) (name : String), name ∉ deltas.map Prod.fst →
      applyDeltas led deltas name = led name := by
  induction deltas with
  | nil => intro led name _; rfl
  | cons nd rest ih =>
    intro led name hname
    have h1 : name ∉ rest.map Prod.fst := fun h => hname (List.mem_cons_of_mem _ h)
    have h2 : name ≠ nd.1 := fun h => hname (h ▸ List.mem_cons_self _ _)
    have hstep : applyDeltas led (nd :: rest) = applyDeltas (applyDelta led nd) rest := rfl
    rw [hstep, ih (applyDelta led nd) name h1, applyDelta, if_neg h2]

/-- With unique resource names (the Go request is a map), applying the
deltas adds exactly its delta to each named resource. -/
theorem applyDeltas_mem (deltas : List (String × Int)) :
    ∀ (led : Ledger) (name : String) (d : Int),
      (deltas.map Prod.fst).Nodup → (name, d) ∈ deltas →
      applyDeltas led deltas name =
        (led name).map (fun r => { r with current := r.current + d }) := by
  induction deltas with
  | nil => intro led name d _ hmem; exact absurd hmem (List.not_mem_nil _)
  | cons nd rest ih =>
    intro led name d hnodup hmem
    have hnodup' : (nd.1 :: rest.map Prod.fst).Nodup := by
      simpa only [List.map_cons] using hnodup
    have hhd : nd.1 ∉ rest.map Prod.fst := (List.nodup_cons.mp hnodup').1
    have htl : (rest.map Prod.fst).Nodup := (List.nodup_cons.mp hnodup').2
    have hstep : applyDeltas led (nd :: rest) = applyDeltas (applyDelta led nd) rest := rfl
    rcases List.mem_cons.mp hmem with heq | hrest
    · subst heq
      rw [hstep, applyDeltas_not_mem rest _ name hhd, applyDelta, if_pos rfl]
    · have hname : name ∈ rest.map Prod.fst :=
        List.mem_map.mpr ⟨(name, d), hrest, rfl⟩
      have hne : name ≠ nd.1 := fun h => hhd (h ▸ hname)
      rw [hstep, ih (applyDelta led nd) name d htl hrest, applyDelta, if_neg hne]

/-- Claim C4: the Allocate transaction processor validates every delta
(negative deltas need current + delta ≥ 0, positive ones current +
delta ≤ max); when all checks pass it applies every delta atomically
and reports success, and when any check fails it applies none — the
result carries Success:false and every resource's current amount is
unchanged.  In particular a ledger with minerals current = 10 that
receives an Allocate of minerals -20 reports Success:false and keeps
current exactly 10. -/
theorem C4_allocate_atomic (led : Ledger) (deltas : List (String × Int))
    (hnodup : (deltas.map Prod.fst).Nodup) :
    (deltas.all (checkDelta led) = true →
      (processAllocate led deltas).2.success = true ∧
      (∀ name d, (name, d) ∈ deltas →
        (processAllocate led deltas).1 name =
          (led name).map (fun r => { r with current := r.current + d })) ∧
      (∀ name, name ∉ deltas.map Prod.fst →
        (processAllocate led deltas).1 name = led name)) ∧
    (deltas.all (checkDelta led) = false →
      (processAllocate led deltas).2.success = false ∧
      (processAllocate led deltas).1 = led) ∧
    ((processAllocate mineralLedger [("minerals", -20)]).2.success = false ∧
     (processAllocate mineralLedger [("minerals", -20)]).1 "minerals" =
       some ⟨10, 100⟩) := by
  refine ⟨?_, ?_, by decide, by decide⟩
  · intro h
    rw [processAllocate, if_pos h]
    exact ⟨rfl, fun name d hmem => applyDeltas_mem deltas led name d hnodup hmem,
      fun name hni => applyDeltas_not_mem deltas led name hni⟩
  · intro h
    rw [processAllocate, if_neg (by simp [h])]
    exact ⟨rfl, rfl⟩

/-- Claim C4 (witness): the resource-exhaustion scenario — allocating
minerals -20 from a ledger holding 10 fails and leaves current at 10. -/
theorem C4_allocate_atomic_witness :
    (processAllocate mineralLedger [("minerals", -20)]).2.success = false ∧
    (processAllocate mineralLedger [("minerals", -20)]).1 "minerals" =
      some ⟨10, 100⟩ :=
  let h := C4_allocate_atomic mineralLedger [("minerals", -20)] (by decide)
  h.2.2

/-- Registry mutations touch only the live registry cell of the heap
and never move the manager's registry reference. -/
theorem mutateSeq_preserves (ops : List RegOp) :
    ∀ (w : ManagerWorld) (r : Nat), r ≠ w.registryRef →
      heapGet (mutateRegistrySeq w ops) r = heapGet w r ∧
      (mutateRegistrySeq w ops).registryRef = w.registryRef := by
  induction ops with
  | nil => intro w r _; exact ⟨rfl, rfl⟩
  | cons op rest ih =>
    intro w r hr
    have hstep : mutateRegistrySeq w (op :: rest) =
        mutateRegistrySeq (mutateRegistry w op) rest := rfl
    have hrr : (mutateRegistry w op).registryRef = w.registryRef := rfl
    have hcell : heapGet (mutateRegistry w op) r = heapGet w r := by
      show ((w.heap.set w.registryRef _)[r]?).getD [] = (w.heap[r]?).getD []
      rw [List.getElem?_set_ne (fun h => hr h.symm)]
    have := ih (mutateRegistry w op) r (hrr ▸ hr)
    rw [hstep]
    exact ⟨this.1.trans hcell, this.2.trans hrr⟩

/-- Claim C7: `GetAllUnits` returns a point-in-time copy of the
registry map, never the live map: the snapshot cell is a fresh address
distinct from the live registry's, its contents equal the registry at
snapshot time, and no later sequence of add/remove mutations of the
live registry changes the snapshot's contents or length. -/
theorem C7_snapshot_isolation (w : ManagerWorld) (ops : List RegOp)
    (hreg : w.registryRef < w.heap.length) :
    (GetAllUnits w).2 ≠ ((GetAllUnits w).1).registryRef ∧
    heapGet (GetAllUnits w).1 (GetAllUnits w).2 = heapGet w w.registryRef ∧
    heapGet (mutateRegistrySeq (GetAllUnits w).1 ops) (GetAllUnits w).2 =
      heapGet w w.registryRef ∧
    (heapGet (mutateRegistrySeq (GetAllUnits w).1 ops) (GetAllUnits w).2).length =
      (heapGet w w.registryRef).length := by
  have hne : (GetAllUnits w).2 ≠ ((GetAllUnits w).1).registryRef := by
    show w.heap.length ≠ w.registryRef
    omega
  have hsnap : heapGet (GetAllUnits w).1 (GetAllUnits w).2 = heapGet w w.registryRef := by
    show ((w.heap ++ [heapGet w w.registryRef])[w.heap.length]?).getD [] = _
    rw [List.getElem?_concat_length]
    rfl
  have hiso := (mutateSeq_preserves ops (GetAllUnits w).1 (GetAllUnits w).2 hne).1
  exact ⟨hne, hsnap, hiso.trans hsnap, by rw [hiso.trans hsnap]⟩

/-- Claim C7 (witness): a one-unit registry snapshot survives an add
and a remove unchanged. -/
theorem C7_snapshot_isolation_witness :
    heapGet
      (mutateRegistrySeq (GetAllUnits ⟨[[("a", "a")]], 0⟩).1
        [RegOp.add "b" "b", RegOp.remove "a"])
      (GetAllUnits ⟨[[("a", "a")]], 0⟩).2 = [("a", "a")] :=
  let h := C7_snapshot_isolation ⟨[[("a", "a")]], 0⟩
    [RegOp.add "b" "b", RegOp.remove "a"] (by decide)
  h.2.2.1

end SCW
